import Mathlib

/-!
# Verification of the Snapchat memories downloader core (`main.py`)

A shallow embedding of the download pipeline: payload classification,
archive extraction, image/video compositing, EXIF/GPS metadata encoding,
capture-time parsing and zone conversion, the orchestrator's statistics
aggregation, and the concurrency gate.  External collaborators (the HTTP
fetch, the PIL image library's decoder/resampler, the ffmpeg subprocess,
the zip parser) enter as explicit environment parameters; everything the
Python source computes itself is translated directly.

Python's exact decimal arithmetic on the GPS path is modelled with
unreduced integer fractions (`Frac`), which the kernel can evaluate;
at every concrete input used below the Python float computation was
checked to agree with the exact rational value.
-/

namespace SnapMem

/-- Raw byte strings are lists of byte values. -/
abbrev Bytes := List Nat

/-! ## Payload classifier (`download_memory`, the `is_zip` test) -/

/-- Python `str.lower()` (character-wise lowering; the strings compared in
the source are ASCII). -/
def strLower (s : String) : String := ⟨s.data.map Char.toLower⟩

/-- Python `str.startswith(p)`. -/
def strStartsWith (s p : String) : Bool := p.data.isPrefixOf s.data

/-- The ZIP local-file-header signature `b"PK\x03\x04"`. -/
def zipMagic : Bytes := [0x50, 0x4B, 0x03, 0x04]

/-- `is_zip`: `response.headers.get("Content-Type", "").lower().startswith("application/zip")
or content[:4] == b"PK\x03\x04"`.  An absent header is modelled as `none`,
which `headers.get` defaults to the empty string. -/
def is_zip (contentType : Option String) (content : Bytes) : Bool :=
  strStartsWith (strLower (contentType.getD "")) "application/zip"
    || (content.take 4 == zipMagic)

/-! ## Exact fractions

Unreduced integer fractions `num / den`.  All fractions built by the
pipeline have a positive denominator; operations never normalize, so the
kernel can evaluate them (ordinary `ℚ` normalizes through `Nat.gcd`,
which the kernel cannot reduce). -/

structure Frac where
  num : ℤ
  den : ℤ
deriving DecidableEq, Repr

namespace Frac

def ofInt (n : ℤ) : Frac := ⟨n, 1⟩

def add (a b : Frac) : Frac := ⟨a.num * b.den + b.num * a.den, a.den * b.den⟩

def sub (a b : Frac) : Frac := ⟨a.num * b.den - b.num * a.den, a.den * b.den⟩

def mul (a b : Frac) : Frac := ⟨a.num * b.num, a.den * b.den⟩

def div (a b : Frac) : Frac := ⟨a.num * b.den, a.den * b.num⟩

/-- Python `abs`. -/
def abs (a : Frac) : Frac := ⟨(a.num.natAbs : ℤ), (a.den.natAbs : ℤ)⟩

/-- Python `int(x)`: truncation toward zero (correct for either sign of
numerator and denominator, by the sign behaviour of `Int.tdiv`). -/
def trunc (a : Frac) : ℤ := a.num.tdiv a.den

/-- Mathematical floor of the represented rational. -/
def floor (a : Frac) : ℤ := a.num.fdiv a.den

/-- The represented rationals are equal (cross multiplication). -/
def equiv (a b : Frac) : Prop := a.num * b.den = b.num * a.den

instance (a b : Frac) : Decidable (a.equiv b) := by
  unfold Frac.equiv
  infer_instance

/-- `0 ≤ a` as represented rationals (robust to denominator sign). -/
def Nonneg (a : Frac) : Prop := 0 ≤ a.num * a.den

instance (a : Frac) : Decidable a.Nonneg := by
  unfold Frac.Nonneg
  infer_instance

/-- `a ≤ b` as represented rationals. -/
def le (a b : Frac) : Prop := (b.sub a).Nonneg

instance (a b : Frac) : Decidable (a.le b) := by
  unfold Frac.le
  infer_instance

/-- Python `round` with ties-to-even, on an exact rational value. -/
def roundHalfEven (q : Frac) : ℤ :=
  let f := q.floor
  let t := (q.sub (ofInt f)).sub ⟨1, 2⟩
  if t.num * t.den < 0 then f
  else if 0 < t.num * t.den then f + 1
  else if f % 2 = 0 then f else f + 1

/-- Python `round(x, n)`: round to `n` decimal digits, ties to even. -/
def roundDec (q : Frac) (n : ℕ) : Frac :=
  ⟨roundHalfEven (q.mul (ofInt (10 ^ n))), 10 ^ n⟩

end Frac

/-! ## GPS metadata numerics (`add_exif_data`: `to_deg`, `deg_to_rational`) -/

/-- `to_deg(value)`: convert decimal degrees to `(deg, min, sec)`; the
seconds are rounded to 6 decimal digits (`round((m_float - m) * 60, 6)`). -/
def to_deg (value : Frac) : ℤ × ℤ × Frac :=
  let d := value.abs.trunc
  let m_float := (value.abs.sub (Frac.ofInt d)).mul (Frac.ofInt 60)
  let m := m_float.trunc
  let s := Frac.roundDec ((m_float.sub (Frac.ofInt m)).mul (Frac.ofInt 60)) 6
  (d, m, s)

/-- `deg_to_rational(dms)`: `[(int(d), 1), (int(m), 1), (int(s * 100), 100)]`.
Python `int` truncates, so the seconds numerator is `(s * 100).trunc`. -/
def deg_to_rational (dms : ℤ × ℤ × Frac) : List (ℤ × ℤ) :=
  [(dms.1, 1), (dms.2.1, 1), ((dms.2.2.mul (Frac.ofInt 100)).trunc, 100)]

/-- Modelled from the spec: "decodes back within 0.0001 degrees" — the code
has no decoder, so decoding an EXIF rational DMS triple is the standard
`d + m/60 + s/3600`, each component read as `numerator / denominator`. -/
def decodeRationalDMS (l : List (ℤ × ℤ)) : Frac :=
  let comp := fun i => (⟨(l.getD i (0, 1)).1, (l.getD i (0, 1)).2⟩ : Frac)
  (comp 0).add (((comp 1).div (Frac.ofInt 60)).add ((comp 2).div (Frac.ofInt 3600)))

/-! ## Civil calendar arithmetic

Models Python's proleptic-Gregorian `datetime`.  `/` and `%` on `ℤ` are
Euclidean; for the positive divisors used here they coincide with floor
division, which is what the algorithms require. -/

/-- Gregorian leap-year test. -/
def isLeap (y : ℤ) : Bool := y % 4 == 0 && (y % 100 != 0 || y % 400 == 0)

/-- Length of a month, as validated by `datetime`'s constructor. -/
def daysInMonth (y m : ℤ) : ℤ :=
  if m = 2 then (if isLeap y then 29 else 28)
  else if m = 4 ∨ m = 6 ∨ m = 9 ∨ m = 11 then 30 else 31

/-- Days since the Unix epoch of a civil date (standard era-based algorithm). -/
def daysFromCivil (y m d : ℤ) : ℤ :=
  let y := if m ≤ 2 then y - 1 else y
  let era := y / 400
  let yoe := y - era * 400
  let mp := (m + 9) % 12
  let doy := (153 * mp + 2) / 5 + d - 1
  let doe := yoe * 365 + yoe / 4 - yoe / 100 + doy
  era * 146097 + doe - 719468

/-- Civil date of a day count since the Unix epoch (inverse of `daysFromCivil`). -/
def civilFromDays (z : ℤ) : ℤ × ℤ × ℤ :=
  let z := z + 719468
  let era := z / 146097
  let doe := z - era * 146097
  let yoe := (doe - doe / 1460 + doe / 36524 - doe / 146096) / 365
  let y := yoe + era * 400
  let doy := doe - (365 * yoe + yoe / 4 - yoe / 100)
  let mp := (5 * doy + 2) / 153
  let d := doy - (153 * mp + 2) / 5 + 1
  let m := mp + (if mp < 10 then 3 else -9)
  (if m ≤ 2 then y + 1 else y, m, d)

/-- Day of week of an epoch day count, `0` = Sunday (1970-01-01 was a Thursday). -/
def weekdayOf (z : ℤ) : ℤ := (z + 4) % 7

/-- Day of month of the second Sunday of March. -/
def secondSundayMarch (y : ℤ) : ℤ :=
  8 + (7 - weekdayOf (daysFromCivil y 3 1)) % 7

/-- Day of month of the first Sunday of November. -/
def firstSundayNovember (y : ℤ) : ℤ :=
  1 + (7 - weekdayOf (daysFromCivil y 11 1)) % 7

/-- US daylight-saving start for a year, as a UTC epoch-second instant:
2:00 standard time (10:00 UTC) on the second Sunday of March. -/
def dstStartUTC (y : ℤ) : ℤ :=
  daysFromCivil y 3 (secondSundayMarch y) * 86400 + 10 * 3600

/-- US daylight-saving end for a year, as a UTC epoch-second instant:
2:00 daylight time (9:00 UTC) on the first Sunday of November. -/
def dstEndUTC (y : ℤ) : ℤ :=
  daysFromCivil y 11 (firstSundayNovember y) * 86400 + 9 * 3600

/-- UTC offset (minutes) of `America/Los_Angeles` at a UTC epoch-second
instant: `-420` (PDT) inside the daylight-saving window, `-480` (PST)
outside.  Models `zoneinfo` under the US rule in effect since 2007, the
rule applicable to every Snapchat export timestamp; the boundary instants
were checked against `zoneinfo` itself. -/
def laOffsetMinutes (t : ℤ) : ℤ :=
  let y := (civilFromDays (t / 86400)).1
  if dstStartUTC y ≤ t ∧ t < dstEndUTC y then -420 else -480

/-- An aware `datetime`: civil fields plus a UTC offset in minutes. -/
structure PyDateTime where
  year : ℤ
  month : ℤ
  day : ℤ
  hour : ℤ
  minute : ℤ
  second : ℤ
  utcOffsetMinutes : ℤ
deriving DecidableEq, Repr

/-- The UTC instant (epoch seconds) an aware `datetime` denotes. -/
def PyDateTime.epochSeconds (t : PyDateTime) : ℤ :=
  daysFromCivil t.year t.month t.day * 86400
    + t.hour * 3600 + t.minute * 60 + t.second - t.utcOffsetMinutes * 60

/-- `dt.replace(tzinfo=timezone.utc)` on a naive parsed value. -/
def mkUTC (y mo d h mi s : ℤ) : PyDateTime := ⟨y, mo, d, h, mi, s, 0⟩

/-- `dt.astimezone(ZoneInfo("America/Los_Angeles"))`: same instant,
re-expressed in Los Angeles civil time. -/
def astimezoneLA (t : PyDateTime) : PyDateTime :=
  let secs := t.epochSeconds
  let off := laOffsetMinutes secs
  let localSecs := secs + off * 60
  let days := localSecs / 86400
  let rem := localSecs % 86400
  let c := civilFromDays days
  ⟨c.1, c.2.1, c.2.2, rem / 3600, rem % 3600 / 60, rem % 60, off⟩

/-! ## Capture-time parsing (`Memory.parse_date`)

`datetime.strptime(v, "%Y-%m-%d %H:%M:%S UTC")` followed by
`replace(tzinfo=utc)` and `astimezone(LA)`.  The parser is modelled on
zero-padded fields (the canonical manifest form; `strptime` additionally
tolerates unpadded month/day digits, which the manifest never produces).
The trailing literal `" UTC"` is part of the format and is required. -/

/-- Value of a decimal digit character. -/
def digitVal (c : Char) : Option ℕ :=
  if c.isDigit then some (c.toNat - 48) else none

/-- Read exactly `w` decimal digits, most significant first. -/
def parseFixedNat : ℕ → ℕ → List Char → Option (ℕ × List Char)
  | 0, acc, rest => some (acc, rest)
  | _ + 1, _, [] => none
  | w + 1, acc, c :: rest =>
    match digitVal c with
    | some d => parseFixedNat w (acc * 10 + d) rest
    | none => none

/-- Require one literal character. -/
def expectChar (c : Char) : List Char → Option (List Char)
  | [] => none
  | x :: rest => if x = c then some rest else none

/-- One directive of a `strptime` format: a fixed-width number or a literal. -/
inductive FmtItem
  | num (width : ℕ)
  | lit (c : Char)

/-- Run a format against the input; the whole input must be consumed. -/
def runFmt : List FmtItem → List Char → Option (List ℕ)
  | [], [] => some []
  | [], _ :: _ => none
  | .num w :: fmt, cs =>
    match parseFixedNat w 0 cs with
    | some (n, rest) =>
      match runFmt fmt rest with
      | some ns => some (n :: ns)
      | none => none
    | none => none
  | .lit c :: fmt, cs =>
    match expectChar c cs with
    | some rest => runFmt fmt rest
    | none => none

/-- The format `"%Y-%m-%d %H:%M:%S UTC"`: the trailing literal `" UTC"` is
part of the format and is required. -/
def dateFmt : List FmtItem :=
  [.num 4, .lit '-', .num 2, .lit '-', .num 2, .lit ' ',
   .num 2, .lit ':', .num 2, .lit ':', .num 2, .lit ' ', .lit 'U', .lit 'T', .lit 'C']

/-- `Memory.parse_date`: parse `"YYYY-MM-DD HH:MM:SS UTC"`, interpret as
UTC, convert to `America/Los_Angeles`.  `none` models the `ValueError`
raised on any malformed string or invalid calendar date. -/
def parse_date (str : String) : Option PyDateTime :=
  match runFmt dateFmt str.data with
  | some [y, mo, d, h, mi, s] =>
    if 1 ≤ y ∧ 1 ≤ mo ∧ mo ≤ 12 ∧ 1 ≤ d ∧ (d : ℤ) ≤ daysInMonth y mo
        ∧ h ≤ 23 ∧ mi ≤ 59 ∧ s ≤ 59 then
      some (astimezoneLA (mkUTC y mo d h mi s))
    else none
  | _ => none

/-- Zero-padded 2-digit rendering. -/
def pad2 (n : ℕ) : List Char := [Nat.digitChar (n / 10 % 10), Nat.digitChar (n % 10)]

/-- Zero-padded 4-digit rendering. -/
def pad4 (n : ℕ) : List Char :=
  [Nat.digitChar (n / 1000 % 10), Nat.digitChar (n / 100 % 10),
    Nat.digitChar (n / 10 % 10), Nat.digitChar (n % 10)]

/-- The canonical manifest capture-time string for given components. -/
def manifestDateString (y mo d h mi s : ℕ) : String :=
  ⟨pad4 y ++ '-' :: (pad2 mo ++ '-' :: (pad2 d ++ ' ' :: (pad2 h ++ ':' ::
    (pad2 mi ++ ':' :: (pad2 s ++ [' ', 'U', 'T', 'C'])))))⟩

/-! ## Memory records -/

/-- A validated manifest record.  `date` is the zone-converted capture time
produced by `parse_date`; `latitude`/`longitude` are the optional
coordinates (backfilled from the free-text location by `model_post_init`,
which is outside the claims verified here). -/
structure Memory where
  date : PyDateTime
  media_type : String
  download_link : String
  location : String
  latitude : Option Frac
  longitude : Option Frac
deriving DecidableEq, Repr

/-- `date.strftime("%Y-%m-%d_%H-%M-%S")`. -/
def strftimeFile (t : PyDateTime) : String :=
  ⟨pad4 t.year.toNat ++ '-' :: (pad2 t.month.toNat ++ '-' :: (pad2 t.day.toNat ++ '_' ::
    (pad2 t.hour.toNat ++ '-' :: (pad2 t.minute.toNat ++ '-' :: pad2 t.second.toNat))))⟩

/-- `Memory.filename`: `".jpg"` when the media type is (case-insensitively)
`"image"`, `".mp4"` for everything else. -/
def Memory.filename (m : Memory) : String :=
  strftimeFile m.date ++ (if strLower m.media_type == "image" then ".jpg" else ".mp4")

/-- `date.strftime("%Y:%m:%d %H:%M:%S")`, the EXIF time format. -/
def strftimeExif (t : PyDateTime) : String :=
  ⟨pad4 t.year.toNat ++ ':' :: (pad2 t.month.toNat ++ ':' :: (pad2 t.day.toNat ++ ' ' ::
    (pad2 t.hour.toNat ++ ':' :: (pad2 t.minute.toNat ++ ':' :: pad2 t.second.toNat))))⟩

/-! ## EXIF / video metadata payloads -/

/-- The GPS IFD fields written by `add_exif_data`. -/
structure GpsExif where
  latRef : String
  lonRef : String
  latDMS : List (ℤ × ℤ)
  lonDMS : List (ℤ × ℤ)
  versionID : List ℕ
deriving DecidableEq, Repr

/-- The GPS block of `add_exif_data`: hemisphere references from sign,
rational DMS values, fixed version marker `(2, 3, 0, 0)`. -/
def gps_exif (lat lon : Frac) : GpsExif :=
  { latRef := if lat.Nonneg then "N" else "S"
    lonRef := if lon.Nonneg then "E" else "W"
    latDMS := deg_to_rational (to_deg lat)
    lonDMS := deg_to_rational (to_deg lon)
    versionID := [2, 3, 0, 0] }

/-- Everything `add_exif_data` embeds: the three identical time fields and,
when both coordinates are known, the GPS block. -/
structure ExifData where
  dateTime : String
  gps : Option GpsExif
deriving DecidableEq, Repr

/-- The metadata computed by `add_exif_data` for a record. -/
def add_exif_data (m : Memory) : ExifData :=
  { dateTime := strftimeExif m.date
    gps :=
      match m.latitude, m.longitude with
      | some lat, some lon => some (gps_exif lat lon)
      | _, _ => none }

/-- Same instant re-expressed in UTC (`memory.date.astimezone(timezone.utc)`). -/
def astimezoneUTC (t : PyDateTime) : PyDateTime :=
  let secs := t.epochSeconds
  let days := secs / 86400
  let rem := secs % 86400
  let c := civilFromDays days
  ⟨c.1, c.2.1, c.2.2, rem / 3600, rem % 3600 / 60, rem % 60, 0⟩

/-- The container metadata `set_video_metadata` asks ffmpeg to write:
the UTC creation time, and the coordinate pair (with the constant 0.0
altitude) when both coordinates are known.  The ISO-8601/ISO-6709 string
rendering is not itself under any claim and is kept symbolic. -/
structure VideoMeta where
  creationTimeUTC : PyDateTime
  location : Option (Frac × Frac)
deriving DecidableEq, Repr

/-- The metadata computed by `set_video_metadata` for a record. -/
def video_meta (m : Memory) : VideoMeta :=
  { creationTimeUTC := astimezoneUTC m.date
    location :=
      match m.latitude, m.longitude with
      | some lat, some lon => some (lat, lon)
      | _, _ => none }

/-! ## Images (PIL collaborator) -/

/-- A decoded 4-channel image: dimensions plus an RGBA pixel map. -/
structure ImageRGBA where
  width : ℕ
  height : ℕ
  pix : ℕ → ℕ → ℕ × ℕ × ℕ × ℕ

/-- A flattened 3-channel image: no alpha channel exists at all. -/
structure ImageRGB where
  width : ℕ
  height : ℕ
  pix : ℕ → ℕ → ℕ × ℕ × ℕ

/-- `convert("RGB")` on an RGBA buffer: the alpha channel is dropped. -/
def ImageRGBA.convertRGB (img : ImageRGBA) : ImageRGB :=
  ⟨img.width, img.height, fun x y =>
    ((img.pix x y).1, (img.pix x y).2.1, (img.pix x y).2.2.1)⟩

/-- PIL resampling filters; the source passes `Image.LANCZOS`. -/
inductive ResampleFilter
  | nearest
  | bilinear
  | bicubic
  | lanczos
deriving DecidableEq, Repr

/-- The PIL operations the pipeline calls, as an environment.  Theorems
assume only PIL's documented interface contracts (a resize has the
requested dimensions; `alpha_composite` keeps the destination geometry). -/
structure PILEnv where
  decode : Bytes → Option ImageRGBA
  resize : ImageRGBA → ℕ → ℕ → ResampleFilter → ImageRGBA
  alphaComposite : ImageRGBA → ImageRGBA → ImageRGBA

/-- PIL contract: `img.resize((w, h), f)` yields a `w × h` image. -/
def ResizeDims (pil : PILEnv) : Prop :=
  ∀ img w h f, (pil.resize img w h f).width = w ∧ (pil.resize img w h f).height = h

/-- PIL contract: `base.alpha_composite(top)` keeps `base`'s geometry. -/
def CompositeDims (pil : PILEnv) : Prop :=
  ∀ base top, (pil.alphaComposite base top).width = base.width
    ∧ (pil.alphaComposite base top).height = base.height

/-! ## The per-item pipeline (`download_memory`) -/

/-- What the pipeline writes to `output_dir / memory.filename`.
Constructors record the exact provenance of the bytes. -/
inductive OutputFile
  | raw (b : Bytes)
  | jpeg (img : ImageRGB)
  | merged (mainData overlayData : Bytes)
  | withExif (base : OutputFile) (e : ExifData)
  | remuxed (base : OutputFile) (meta : VideoMeta)

/-- The image pixels an output file carries, looking through metadata
wrappers (EXIF insertion does not touch pixel data). -/
def OutputFile.imageContent : OutputFile → Option ImageRGB
  | .jpeg img => some img
  | .withExif base _ => base.imageContent
  | .remuxed base _ => base.imageContent
  | _ => none

/-- `zf.read(name)`: `zipfile` keeps the last entry under a duplicated
name; absent names cannot occur on the callers below. -/
def zfRead (entries : List (String × Bytes)) (name : String) : Bytes :=
  (((entries.filter (fun e => e.1 == name)).getLast?).map (·.2)).getD []

/-- Python's substring test `needle in hay`. -/
def strContains (hay needle : String) : Bool :=
  hay.data.tails.any (fun t => needle.data.isPrefixOf t)

/-- The per-item external world: fetch outcome, payload bytes, declared
content type, the zip table of contents (`none` models `BadZipFile`), the
PIL operations, and the ffmpeg exit status (`false` = every invocation of
the external tool exits non-zero). -/
structure ItemEnv where
  fetchOk : Bool
  content : Bytes
  contentType : Option String
  zipEntries : Option (List (String × Bytes))
  pil : PILEnv
  ffmpegOk : Bool

/-- Observable side effects of one item, tagged with the owning record. -/
inductive Event
  | acquire (m : Memory)
  | fetch (m : Memory)
  | write (m : Memory)
  | release (m : Memory)
deriving DecidableEq

/-- Per-item result: outcome flag and byte count (the pair `download_memory`
returns), plus what was written and the item's event trace. -/
structure ItemResult where
  success : Bool
  bytesDownloaded : ℕ
  written : Option OutputFile
  events : List Event

/-- An exception caught at the item boundary: `return False, 0`, with no
file written (every raising path below raises before any write). -/
def failResult (memory : Memory) : ItemResult :=
  ⟨false, 0, none, [.acquire memory, .fetch memory, .release memory]⟩

/-- The metadata step at the end of a successful item: EXIF insertion for
images, the ffmpeg remux pass for videos (whose failure is swallowed,
leaving the file as written). -/
def applyMetadata (env : ItemEnv) (memory : Memory) (add_exif : Bool)
    (f : OutputFile) : OutputFile :=
  if add_exif then
    if strLower memory.media_type == "image" then .withExif f (add_exif_data memory)
    else if strLower memory.media_type == "video" then
      (if env.ffmpegOk then .remuxed f (video_meta memory) else f)
    else f
  else f

/-- A successful item: the asset is persisted, metadata applied, and
`(True, len(content))` returned. -/
def successResult (env : ItemEnv) (memory : Memory) (add_exif : Bool)
    (f : OutputFile) : ItemResult :=
  ⟨true, env.content.length, some (applyMetadata env memory add_exif f),
    [.acquire memory, .fetch memory, .write memory, .release memory]⟩

/-- The body of `download_memory` up to and including the asset write:
`some f` is the persisted asset, `none` is any exception raised before a
write (fetch failure, `BadZipFile`, missing base entry, image decode
failure, unsupported media type) — every raising path raises before the
item's output path is touched. -/
def downloadCore (env : ItemEnv) (memory : Memory) : Option OutputFile :=
  if !env.fetchOk then none
  else
    let content := env.content
    if is_zip env.contentType content then
      match env.zipEntries with
      | none => none
      | some entries =>
        let files := entries.map (·.1)
        match files.find? (fun f => strContains f "-main") with
        | none => none
        | some main_file =>
          let overlay_file := files.find? (fun f => strContains f "-overlay")
          let main_data := zfRead entries main_file
          let overlay_data := overlay_file.map (zfRead entries)
          if strLower memory.media_type == "image" then
            match env.pil.decode main_data with
            | none => none
            | some main_img =>
              match overlay_data with
              | some od =>
                match env.pil.decode od with
                | none => none
                | some overlay_img =>
                  let overlay_resized :=
                    env.pil.resize overlay_img main_img.width main_img.height .lanczos
                  let composited := env.pil.alphaComposite main_img overlay_resized
                  some (.jpeg composited.convertRGB)
              | none => some (.jpeg main_img.convertRGB)
          else if strLower memory.media_type == "video" then
            match overlay_data with
            | some od =>
              if env.ffmpegOk then some (.merged main_data od)
              else some (.raw main_data)
            | none => some (.raw main_data)
          else none
    else some (.raw content)

/-- `download_memory`: fetch, classify, extract and composite as needed,
persist, apply metadata; any exception is caught at the item boundary and
becomes `(False, 0)`. -/
def download_memory (env : ItemEnv) (memory : Memory) (add_exif : Bool) : ItemResult :=
  match downloadCore env memory with
  | none => failResult memory
  | some f => successResult env memory add_exif f

/-! ## Run statistics and the orchestrator (`download_all`)

In the source the per-item completions run on a single-threaded asyncio
event loop and each `stats.<field> += 1` contains no suspension point, so
the increments are serialized; the fold below is that serialization (the
counts are order-independent, so the completion order is irrelevant). -/

/-- The run-wide counters. -/
structure Stats where
  downloaded : ℕ
  skipped : ℕ
  failed : ℕ
  mb : Frac
deriving DecidableEq, Repr

/-- `Stats()`: all counters start at zero. -/
def Stats.init : Stats := ⟨0, 0, 0, ⟨0, 1048576⟩⟩

/-- `process_and_update`: record one completed item into the stats —
exactly one of `downloaded`/`failed` is incremented, then the megabyte
total grows by `bytes_downloaded / 1024 / 1024`. -/
def process_and_update (stats : Stats) (r : ItemResult) : Stats :=
  let stats' :=
    if r.success then { stats with downloaded := stats.downloaded + 1 }
    else { stats with failed := stats.failed + 1 }
  { stats' with mb := stats'.mb.add ⟨(r.bytesDownloaded : ℤ), 1048576⟩ }

/-- The run-wide external world: the per-item environments and the
existence scan of the output directory (performed up front, before any
download starts). -/
structure RunEnv where
  itemEnv : Memory → ItemEnv
  pathExists : String → Bool

/-- The skip-existing scan loop of `download_all`: records whose derived
file already exists are counted skipped, every other record is appended
to `to_download`. -/
def scanPhase (env : RunEnv) (skip_existing : Bool) (memories : List Memory) :
    Stats × List Memory :=
  memories.foldl
    (fun acc memory =>
      if skip_existing && env.pathExists memory.filename then
        ({ acc.1 with skipped := acc.1.skipped + 1 }, acc.2)
      else (acc.1, acc.2 ++ [memory]))
    (Stats.init, [])

/-- `download_all`: scan, then run `process_and_update` over every
scheduled record.  Returns the final stats and the scheduled list. -/
def download_all (env : RunEnv) (add_exif skip_existing : Bool)
    (memories : List Memory) : Stats × List Memory :=
  let scanned := scanPhase env skip_existing memories
  (scanned.2.foldl
      (fun s memory =>
        process_and_update s (download_memory (env.itemEnv memory) memory add_exif))
      scanned.1,
    scanned.2)

/-- Every observable side effect of a run: scheduled items only — a
skipped record reaches no code that fetches, acquires or writes. -/
def runEvents (env : RunEnv) (add_exif skip_existing : Bool)
    (memories : List Memory) : List Event :=
  (download_all env add_exif skip_existing memories).2.flatMap
    (fun memory => (download_memory (env.itemEnv memory) memory add_exif).events)

/-! ## The concurrency gate (`asyncio.Semaphore(max_concurrent)`)

`download_all` creates one semaphore with `max_concurrent` permits
(default 40) and every `download_memory` runs its whole body inside
`async with semaphore`.  The gate is modelled as a transition system over
item counts: an item moves from waiting to active only when fewer than
`K` items are active (`acquire`), and from active to done (`release`). -/

/-- Default of the `--concurrent` option: `asyncio.Semaphore(40)`. -/
def defaultMaxConcurrent : ℕ := 40

/-- Counts of items not yet admitted, currently between `acquire` and
`release`, and finished. -/
structure GateState where
  waiting : ℕ
  active : ℕ
  done : ℕ
deriving DecidableEq, Repr

/-- One scheduler step of the gated run. -/
inductive GateStep (K : ℕ) : GateState → GateState → Prop
  | acquire (w a d : ℕ) : a < K → GateStep K ⟨w + 1, a, d⟩ ⟨w, a + 1, d⟩
  | release (w a d : ℕ) : GateStep K ⟨w, a + 1, d⟩ ⟨w, a, d + 1⟩

/-- States reachable from the start of a run over `n` scheduled items. -/
def GateReachable (K n : ℕ) (s : GateState) : Prop :=
  Relation.ReflTransGen (GateStep K) ⟨n, 0, 0⟩ s

/-! ## Concrete fixtures used to instantiate theorems at closed inputs -/

/-- A capture instant: 2024-01-01 12:00:00 UTC, i.e. 04:00:00 PST. -/
def dateFix : PyDateTime := ⟨2024, 1, 1, 4, 0, 0, -480⟩

/-- An image record. -/
def memImage : Memory := ⟨dateFix, "Image", "https://cf.sc/1", "", none, none⟩

/-- A video record. -/
def memVideo : Memory := ⟨dateFix, "Video", "https://cf.sc/2", "", none, none⟩

/-- A record of an unrecognized media kind. -/
def memOther : Memory := ⟨dateFix, "Audio", "https://cf.sc/3", "", none, none⟩

/-- A fixed 2×3 RGBA image. -/
def imgFix : ImageRGBA := ⟨2, 3, fun _ _ => (10, 20, 30, 255)⟩

/-- A concrete PIL collaborator: decodes anything to `imgFix`, resizes by
reindexing to the requested geometry, composites by keeping the
destination geometry. -/
def pilFix : PILEnv :=
  { decode := fun _ => some imgFix
    resize := fun img w h _ => ⟨w, h, img.pix⟩
    alphaComposite := fun base top =>
      ⟨base.width, base.height, fun x y =>
        ((top.pix x y).1, (top.pix x y).2.1, (top.pix x y).2.2.1, 255)⟩ }

/-- A zip payload whose archive has an overlay entry but no base entry. -/
def envNoMain : ItemEnv :=
  { fetchOk := true
    content := [0x50, 0x4B, 0x03, 0x04]
    contentType := none
    zipEntries := some [("media~zip-overlay.png", [9, 9])]
    pil := pilFix
    ffmpegOk := true }

/-- A zip payload with base and overlay entries, against a failing ffmpeg. -/
def envMergeFail : ItemEnv :=
  { fetchOk := true
    content := [0x50, 0x4B, 0x03, 0x04, 0x01]
    contentType := some "application/zip"
    zipEntries := some [("media~zip-main.mp4", [7, 7, 7]), ("media~zip-overlay.png", [8, 8])]
    pil := pilFix
    ffmpegOk := false }

/-- A zip payload with base and overlay entries and a working ffmpeg. -/
def envMergeOk : ItemEnv :=
  { envMergeFail with ffmpegOk := true }

/-- A plain (non-zip) payload. -/
def envPlain : ItemEnv :=
  { fetchOk := true
    content := [0x00, 0x01, 0x02]
    contentType := some "video/mp4"
    zipEntries := none
    pil := pilFix
    ffmpegOk := true }

/-- A run in which every derived output file already exists. -/
def runEnvFix : RunEnv :=
  { itemEnv := fun _ => envPlain
    pathExists := fun _ => true }

/-! # Theorems -/

/-! ## Sanity checks of the embedding on concrete values -/

example : to_deg ⟨377749, 10000⟩ = (37, 46, ⟨29640000, 1000000⟩) := by decide
example : deg_to_rational (to_deg ⟨377749, 10000⟩) = [(37, 1), (46, 1), (2964, 100)] := by
  decide
example : (decodeRationalDMS [(37, 1), (46, 1), (2964, 100)]).equiv ⟨377749, 10000⟩ := by
  decide
example : astimezoneLA (mkUTC 2024 1 1 12 0 0) = ⟨2024, 1, 1, 4, 0, 0, -480⟩ := by decide
example : astimezoneLA (mkUTC 2024 7 4 12 0 0) = ⟨2024, 7, 4, 5, 0, 0, -420⟩ := by decide
example : astimezoneLA (mkUTC 2024 3 10 9 59 59) = ⟨2024, 3, 10, 1, 59, 59, -480⟩ := by
  decide
example : astimezoneLA (mkUTC 2024 3 10 10 0 0) = ⟨2024, 3, 10, 3, 0, 0, -420⟩ := by decide
example : astimezoneLA (mkUTC 2024 11 3 8 59 59) = ⟨2024, 11, 3, 1, 59, 59, -420⟩ := by
  decide
example : astimezoneLA (mkUTC 2024 11 3 9 0 0) = ⟨2024, 11, 3, 1, 0, 0, -480⟩ := by decide
example : manifestDateString 2024 1 1 12 0 0 = "2024-01-01 12:00:00 UTC" := by decide
example : parse_date "2024-01-01 12:00:00 UTC" = some ⟨2024, 1, 1, 4, 0, 0, -480⟩ := by
  decide
example : parse_date "2024-02-30 12:00:00 UTC" = none := by decide

/-! ## C2 — payload classification -/

/-- The code's 4-byte slice test is the "begins with the signature" test. -/
theorem take_four_eq_iff (content : Bytes) :
    content.take 4 = zipMagic ↔ zipMagic <+: content := by
  rw [List.prefix_iff_eq_take]
  constructor
  · intro h
    exact h.symm
  · intro h
    exact h.symm

/-- C2: a fetched payload is classified composite iff the declared
content-type (case-insensitively) begins with `application/zip` or the
first four bytes are `0x50 0x4B 0x03 0x04`; in particular a payload
beginning with the signature is classified composite for every declared
content-type, including an absent one. -/
theorem payload_classification (ct : Option String) (content : Bytes) :
    (is_zip ct content = true ↔
      (strStartsWith (strLower (ct.getD "")) "application/zip" = true
        ∨ zipMagic <+: content))
    ∧ (zipMagic <+: content → is_zip ct content = true)
    ∧ (zipMagic <+: content → is_zip none content = true) := by
  have hiff : is_zip ct content = true ↔
      (strStartsWith (strLower (ct.getD "")) "application/zip" = true
        ∨ zipMagic <+: content) := by
    rw [← take_four_eq_iff]
    simp [is_zip]
  refine ⟨hiff, fun h => hiff.mpr (Or.inr h), fun h => ?_⟩
  have htake : content.take 4 = zipMagic := (take_four_eq_iff content).mpr h
  simp [is_zip, htake]

/-- C2 witness: a payload starting with the signature but served with no
content-type header is classified composite. -/
theorem payload_classification_witness :
    is_zip none [0x50, 0x4B, 0x03, 0x04, 0x99] = true :=
  (payload_classification none [0x50, 0x4B, 0x03, 0x04, 0x99]).2.1 ⟨[0x99], rfl⟩

/-! ## C9 — the concurrency gate bound -/

/-- C9: in any state reachable during a run over `n` scheduled items with
gate bound `K`, at most `K` items are between `acquire` and `release`. -/
theorem gate_bound (K n : ℕ) (s : GateState) (h : GateReachable K n s) :
    s.active ≤ K := by
  induction h with
  | refl => exact Nat.zero_le K
  | tail _ h2 ih =>
    cases h2 with
    | acquire w a d hlt => exact hlt
    | release w a d => exact Nat.le_of_succ_le (ih : _ + 1 ≤ K)

/-- C9 witness: with the spec's test harness parameters (gate size `K = 3`,
`10` items), a state with one admitted item is reachable and within bound. -/
theorem gate_bound_witness : (⟨9, 1, 0⟩ : GateState).active ≤ 3 :=
  gate_bound 3 10 ⟨9, 1, 0⟩
    (Relation.ReflTransGen.single (GateStep.acquire 9 0 0 (by decide)))

/-! ## C3 — composite archive without a base entry -/

/-- C3: a composite archive with no entry whose name contains `"-main"`
fails with the format error, is counted failed, and writes nothing. -/
theorem missing_base_entry (env : ItemEnv) (memory : Memory) (add_exif : Bool)
    (stats : Stats) (entries : List (String × Bytes))
    (hfetch : env.fetchOk = true)
    (hzip : is_zip env.contentType env.content = true)
    (hentries : env.zipEntries = some entries)
    (hnomain : ∀ e ∈ entries, strContains e.1 "-main" = false) :
    (download_memory env memory add_exif).success = false
    ∧ (download_memory env memory add_exif).written = none
    ∧ (download_memory env memory add_exif).bytesDownloaded = 0
    ∧ (process_and_update stats (download_memory env memory add_exif)).failed
        = stats.failed + 1
    ∧ (process_and_update stats (download_memory env memory add_exif)).downloaded
        = stats.downloaded
    ∧ (process_and_update stats (download_memory env memory add_exif)).skipped
        = stats.skipped := by
  have hfind : (entries.map (·.1)).find? (fun f => strContains f "-main") = none := by
    rw [List.find?_eq_none]
    intro x hx
    obtain ⟨e, he, rfl⟩ := List.mem_map.mp hx
    simp [hnomain e he]
  have hcore : downloadCore env memory = none := by
    simp [downloadCore, hfetch, hzip, hentries, hfind]
  simp [download_memory, hcore, failResult, process_and_update]

/-- C3 witness: the fixture archive holding only an overlay entry fails,
writes nothing, and is counted failed. -/
theorem missing_base_entry_witness :
    (download_memory envNoMain memImage true).success = false
    ∧ (download_memory envNoMain memImage true).written = none
    ∧ (download_memory envNoMain memImage true).bytesDownloaded = 0
    ∧ (process_and_update Stats.init (download_memory envNoMain memImage true)).failed
        = Stats.init.failed + 1
    ∧ (process_and_update Stats.init (download_memory envNoMain memImage true)).downloaded
        = Stats.init.downloaded
    ∧ (process_and_update Stats.init (download_memory envNoMain memImage true)).skipped
        = Stats.init.skipped :=
  missing_base_entry envNoMain memImage true Stats.init
    [("media~zip-overlay.png", [9, 9])] rfl (by decide) rfl (by decide)

/-! ## C4 — video overlay-merge failure falls back to the base video -/

/-- C4: for a video item whose archive has base and overlay entries, when
the external tool exits non-zero the output file is exactly the unmodified
base video bytes and the item is counted downloaded, not failed. -/
theorem video_merge_fallback (env : ItemEnv) (memory : Memory) (add_exif : Bool)
    (stats : Stats) (entries : List (String × Bytes)) (main_file overlay_file : String)
    (hfetch : env.fetchOk = true)
    (hzip : is_zip env.contentType env.content = true)
    (hentries : env.zipEntries = some entries)
    (hvideo : strLower memory.media_type = "video")
    (hmain : (entries.map (·.1)).find? (fun f => strContains f "-main") = some main_file)
    (hover : (entries.map (·.1)).find? (fun f => strContains f "-overlay")
        = some overlay_file)
    (hffmpeg : env.ffmpegOk = false) :
    (download_memory env memory add_exif).success = true
    ∧ (download_memory env memory add_exif).written
        = some (OutputFile.raw (zfRead entries main_file))
    ∧ (process_and_update stats (download_memory env memory add_exif)).downloaded
        = stats.downloaded + 1
    ∧ (process_and_update stats (download_memory env memory add_exif)).failed
        = stats.failed := by
  have himg : (strLower memory.media_type == "image") = false := by
    simp [hvideo]
  have hvid : (strLower memory.media_type == "video") = true := by
    simp [hvideo]
  have hcore : downloadCore env memory
      = some (OutputFile.raw (zfRead entries main_file)) := by
    simp [downloadCore, hfetch, hzip, hentries, hmain, hover, himg, hvid, hffmpeg]
  simp [download_memory, hcore, successResult, applyMetadata, himg, hvid, hffmpeg,
    process_and_update]

/-- C4 witness: the fixture archive with base and overlay against a
failing ffmpeg writes the raw base bytes and is counted downloaded. -/
theorem video_merge_fallback_witness :
    (download_memory envMergeFail memVideo true).success = true
    ∧ (download_memory envMergeFail memVideo true).written
        = some (OutputFile.raw (zfRead
            [("media~zip-main.mp4", [7, 7, 7]), ("media~zip-overlay.png", [8, 8])]
            "media~zip-main.mp4"))
    ∧ (process_and_update Stats.init (download_memory envMergeFail memVideo true)).downloaded
        = Stats.init.downloaded + 1
    ∧ (process_and_update Stats.init (download_memory envMergeFail memVideo true)).failed
        = Stats.init.failed :=
  video_merge_fallback envMergeFail memVideo true Stats.init
    [("media~zip-main.mp4", [7, 7, 7]), ("media~zip-overlay.png", [8, 8])]
    "media~zip-main.mp4" "media~zip-overlay.png"
    rfl (by decide) rfl (by decide) (by decide) (by decide) rfl

/-! ## C10 — media kinds other than image/video -/

/-- C10: for a record whose media kind is neither `"image"` nor `"video"`
(case-insensitively): a composite payload with a base entry raises the
unsupported-media-type error (counted failed, nothing written), while a
plain payload is written raw, under a filename with the `".mp4"`
extension, and counted downloaded. -/
theorem unsupported_media_type (env : ItemEnv) (memory : Memory) (add_exif : Bool)
    (stats : Stats)
    (hfetch : env.fetchOk = true)
    (hnotimg : strLower memory.media_type ≠ "image")
    (hnotvid : strLower memory.media_type ≠ "video") :
    (∀ entries main_file,
      is_zip env.contentType env.content = true →
      env.zipEntries = some entries →
      (entries.map (·.1)).find? (fun f => strContains f "-main") = some main_file →
      (download_memory env memory add_exif).success = false
      ∧ (download_memory env memory add_exif).written = none
      ∧ (process_and_update stats (download_memory env memory add_exif)).failed
          = stats.failed + 1)
    ∧ (is_zip env.contentType env.content = false →
        (download_memory env memory add_exif).success = true
        ∧ (download_memory env memory add_exif).written
            = some (OutputFile.raw env.content)
        ∧ memory.filename = strftimeFile memory.date ++ ".mp4"
        ∧ (process_and_update stats (download_memory env memory add_exif)).downloaded
            = stats.downloaded + 1) := by
  have himg : (strLower memory.media_type == "image") = false := by
    simpa using hnotimg
  have hvid : (strLower memory.media_type == "video") = false := by
    simpa using hnotvid
  constructor
  · intro entries main_file hzip hentries hmain
    have hcore : downloadCore env memory = none := by
      simp [downloadCore, hfetch, hzip, hentries, hmain, himg, hvid]
    simp [download_memory, hcore, failResult, process_and_update]
  · intro hzip
    have hcore : downloadCore env memory = some (OutputFile.raw env.content) := by
      simp [downloadCore, hfetch, hzip]
    simp [download_memory, hcore, successResult, applyMetadata, himg, hvid,
      process_and_update, Memory.filename, himg]

/-! ## Orchestrator bookkeeping lemmas (shared by C1 and C8) -/

/-- Effect of one completed item on the counters when it succeeded. -/
theorem process_and_update_success (st : Stats) (r : ItemResult) (h : r.success = true) :
    (process_and_update st r).downloaded = st.downloaded + 1
    ∧ (process_and_update st r).failed = st.failed
    ∧ (process_and_update st r).skipped = st.skipped := by
  simp [process_and_update, h]

/-- Effect of one completed item on the counters when it failed. -/
theorem process_and_update_failure (st : Stats) (r : ItemResult) (h : r.success = false) :
    (process_and_update st r).downloaded = st.downloaded
    ∧ (process_and_update st r).failed = st.failed + 1
    ∧ (process_and_update st r).skipped = st.skipped := by
  simp [process_and_update, h]

/-- Closed form of the skip-existing scan loop, for any starting
accumulator. -/
theorem scanPhase_go (env : RunEnv) (skip : Bool) (ms : List Memory)
    (st : Stats) (td : List Memory) :
    ms.foldl
      (fun acc memory =>
        if skip && env.pathExists memory.filename then
          ({ acc.1 with skipped := acc.1.skipped + 1 }, acc.2)
        else (acc.1, acc.2 ++ [memory]))
      (st, td)
    = ({ st with skipped := st.skipped
          + (ms.filter (fun m => skip && env.pathExists m.filename)).length },
        td ++ ms.filter (fun m => !(skip && env.pathExists m.filename))) := by
  induction ms generalizing st td with
  | nil => simp
  | cons m ms ih =>
    by_cases h : (skip && env.pathExists m.filename) = true
    · simp only [List.foldl_cons, h, if_true, if_pos]
      rw [ih]
      simp only [List.filter_cons, h, Bool.not_true, Bool.false_eq_true, if_true,
        if_false, List.length_cons, Prod.mk.injEq, Stats.mk.injEq, true_and,
        and_true, eq_self_iff_true]
      omega
    · have h' : (!(skip && env.pathExists m.filename)) = true := by
        cases hb : (skip && env.pathExists m.filename) with
        | false => rfl
        | true => exact absurd hb h
      have hf1 : List.filter (fun x => skip && env.pathExists x.filename) (m :: ms)
          = List.filter (fun x => skip && env.pathExists x.filename) ms := by
        rw [List.filter_cons_of_neg]
        exact h
      have hf2 : List.filter (fun x => !(skip && env.pathExists x.filename)) (m :: ms)
          = m :: List.filter (fun x => !(skip && env.pathExists x.filename)) ms :=
        List.filter_cons_of_pos h'
      simp only [List.foldl_cons, h, Bool.false_eq_true, if_false]
      rw [ih, hf1, hf2]
      simp

/-- The scan phase counts the existing files as skipped and schedules
exactly the rest, in order. -/
theorem scanPhase_spec (env : RunEnv) (skip : Bool) (ms : List Memory) :
    scanPhase env skip ms
    = ({ Stats.init with
          skipped := (ms.filter (fun m => skip && env.pathExists m.filename)).length },
        ms.filter (fun m => !(skip && env.pathExists m.filename))) := by
  unfold scanPhase
  rw [scanPhase_go]
  simp [Stats.init]

/-- Closed form of the completion fold: each item adds one to exactly one
of `downloaded`/`failed`, and never touches `skipped`. -/
theorem downloadFold_spec (env : RunEnv) (add_exif : Bool) (ms : List Memory)
    (st : Stats) :
    ((ms.foldl
        (fun s memory =>
          process_and_update s (download_memory (env.itemEnv memory) memory add_exif))
        st).downloaded
      = st.downloaded
        + (ms.filter
            (fun m => (download_memory (env.itemEnv m) m add_exif).success)).length)
    ∧ ((ms.foldl
        (fun s memory =>
          process_and_update s (download_memory (env.itemEnv memory) memory add_exif))
        st).failed
      = st.failed
        + (ms.filter
            (fun m => !(download_memory (env.itemEnv m) m add_exif).success)).length)
    ∧ ((ms.foldl
        (fun s memory =>
          process_and_update s (download_memory (env.itemEnv memory) memory add_exif))
        st).skipped
      = st.skipped) := by
  induction ms generalizing st with
  | nil => simp
  | cons m ms ih =>
    simp only [List.foldl_cons, List.filter_cons]
    by_cases h : (download_memory (env.itemEnv m) m add_exif).success = true
    · obtain ⟨h1, h2, h3⟩ :=
        process_and_update_success st (download_memory (env.itemEnv m) m add_exif) h
      obtain ⟨i1, i2, i3⟩ :=
        ih (process_and_update st (download_memory (env.itemEnv m) m add_exif))
      simp only [h, Bool.not_true, if_pos, Bool.false_eq_true, if_false,
        List.length_cons]
      refine ⟨?_, ?_, ?_⟩
      · rw [i1, h1]; omega
      · rw [i2, h2]
      · rw [i3, h3]
    · have h' : (download_memory (env.itemEnv m) m add_exif).success = false := by
        simpa using h
      obtain ⟨h1, h2, h3⟩ :=
        process_and_update_failure st (download_memory (env.itemEnv m) m add_exif) h'
      obtain ⟨i1, i2, i3⟩ :=
        ih (process_and_update st (download_memory (env.itemEnv m) m add_exif))
      simp only [h', Bool.not_false, Bool.false_eq_true, if_false, if_pos,
        List.length_cons]
      refine ⟨?_, ?_, ?_⟩
      · rw [i1, h1]
      · rw [i2, h2]; omega
      · rw [i3, h3]

/-- Splitting a list by a predicate preserves its length. -/
theorem length_filter_split {α : Type} (p : α → Bool) (l : List α) :
    (l.filter p).length + (l.filter (fun x => !p x)).length = l.length := by
  induction l with
  | nil => rfl
  | cons a l ih =>
    by_cases h : p a = true <;> simp [List.filter_cons, h] <;> omega

/-- Every event of one item is tagged with that item's record. -/
theorem download_memory_events_owner (env : ItemEnv) (m : Memory) (a : Bool)
    (e : Event) (he : e ∈ (download_memory env m a).events) :
    e = .acquire m ∨ e = .fetch m ∨ e = .write m ∨ e = .release m := by
  unfold download_memory at he
  cases h : downloadCore env m <;> rw [h] at he <;>
    simp [failResult, successResult] at he <;> tauto

/-- Full characterization of a run's final statistics and schedule
(shared by the C1 and C8 theorems). -/
theorem run_spec (env : RunEnv) (add_exif skip_existing : Bool)
    (memories : List Memory) :
    ((download_all env add_exif skip_existing memories).1.downloaded
        + (download_all env add_exif skip_existing memories).1.skipped
        + (download_all env add_exif skip_existing memories).1.failed
      = memories.length)
    ∧ ((download_all env add_exif skip_existing memories).1.skipped
      = (memories.filter
          (fun m => skip_existing && env.pathExists m.filename)).length)
    ∧ ((download_all env add_exif skip_existing memories).2
      = memories.filter (fun m => !(skip_existing && env.pathExists m.filename)))
    ∧ ((download_all env add_exif skip_existing memories).1.downloaded
      = ((download_all env add_exif skip_existing memories).2.filter
          (fun m => (download_memory (env.itemEnv m) m add_exif).success)).length)
    ∧ ((download_all env add_exif skip_existing memories).1.failed
      = ((download_all env add_exif skip_existing memories).2.filter
          (fun m => !(download_memory (env.itemEnv m) m add_exif).success)).length) := by
  have hscan := scanPhase_spec env skip_existing memories
  have hda : download_all env add_exif skip_existing memories
      = ((memories.filter
            (fun m => !(skip_existing && env.pathExists m.filename))).foldl
          (fun s memory =>
            process_and_update s (download_memory (env.itemEnv memory) memory add_exif))
          { Stats.init with
            skipped := (memories.filter
              (fun m => skip_existing && env.pathExists m.filename)).length },
        memories.filter (fun m => !(skip_existing && env.pathExists m.filename))) := by
    unfold download_all
    rw [hscan]
  obtain ⟨f1, f2, f3⟩ := downloadFold_spec env add_exif
    (memories.filter (fun m => !(skip_existing && env.pathExists m.filename)))
    { Stats.init with
      skipped := (memories.filter
        (fun m => skip_existing && env.pathExists m.filename)).length }
  have hsplit := length_filter_split
    (fun m => skip_existing && env.pathExists m.filename) memories
  have hsplit2 := length_filter_split
    (fun m => (download_memory (env.itemEnv m) m add_exif).success)
    (memories.filter (fun m => !(skip_existing && env.pathExists m.filename)))
  rw [hda]
  simp only [f1, f2, f3]
  refine ⟨?_, ?_, ?_, ?_, ?_⟩ <;>
    first
      | rfl
      | trivial
      | (dsimp only [Stats.init]; omega)

/-! ## C7 — capture-time parsing and zone conversion -/

/-- `digitVal` inverts `Nat.digitChar` on decimal digits. -/
theorem digitVal_digitChar (d : ℕ) (h : d < 10) :
    digitVal (Nat.digitChar d) = some d := by
  interval_cases d <;> decide

/-- Reading two digits of a zero-padded 2-digit number. -/
theorem parseFixedNat_pad2 (n : ℕ) (h : n < 100) (rest : List Char) :
    parseFixedNat 2 0 (pad2 n ++ rest) = some (n, rest) := by
  have h1 : n / 10 < 10 := by omega
  have h2 : n % 10 < 10 := Nat.mod_lt _ (by norm_num)
  have e1 : n / 10 % 10 = n / 10 := Nat.mod_eq_of_lt h1
  have key : (0 * 10 + n / 10) * 10 + n % 10 = n := by omega
  simp only [pad2, List.cons_append, List.nil_append, parseFixedNat, e1,
    digitVal_digitChar _ h1, digitVal_digitChar _ h2, key]
  rfl

/-- Reading four digits of a zero-padded 4-digit number. -/
theorem parseFixedNat_pad4 (n : ℕ) (h : n < 10000) (rest : List Char) :
    parseFixedNat 4 0 (pad4 n ++ rest) = some (n, rest) := by
  have h1 : n / 1000 < 10 := by omega
  have e1 : n / 1000 % 10 = n / 1000 := Nat.mod_eq_of_lt h1
  have h2 : n / 100 % 10 < 10 := Nat.mod_lt _ (by norm_num)
  have h3 : n / 10 % 10 < 10 := Nat.mod_lt _ (by norm_num)
  have h4 : n % 10 < 10 := Nat.mod_lt _ (by norm_num)
  have key : (((0 * 10 + n / 1000) * 10 + n / 100 % 10) * 10 + n / 10 % 10) * 10
      + n % 10 = n := by omega
  simp only [pad4, List.cons_append, List.nil_append, parseFixedNat, e1,
    digitVal_digitChar _ h1, digitVal_digitChar _ h2, digitVal_digitChar _ h3,
    digitVal_digitChar _ h4, key]
  rfl

/-- Running the manifest date format over a canonical date string yields
exactly the six numeric components. -/
theorem runFmt_dateFmt (y mo d h mi s : ℕ) (hy : y < 10000) (hmo : mo < 100)
    (hd : d < 100) (hh : h < 100) (hmi : mi < 100) (hs : s < 100) :
    runFmt dateFmt (manifestDateString y mo d h mi s).data
      = some [y, mo, d, h, mi, s] := by
  show runFmt dateFmt
      (pad4 y ++ '-' :: (pad2 mo ++ '-' :: (pad2 d ++ ' ' :: (pad2 h ++ ':' ::
        (pad2 mi ++ ':' :: (pad2 s ++ [' ', 'U', 'T', 'C'])))))) = _
  simp only [dateFmt, runFmt, expectChar, parseFixedNat_pad4 y hy,
    parseFixedNat_pad2 mo hmo, parseFixedNat_pad2 d hd, parseFixedNat_pad2 h hh,
    parseFixedNat_pad2 mi hmi, parseFixedNat_pad2 s hs, eq_self_iff_true, if_true]

set_option maxHeartbeats 4000000 in
/-- The day-of-year and year-of-era computed by `civilFromDays` lie in
their calendar ranges, for every day of a 400-year era. -/
theorem doy_bounds (doe : ℤ) (h1 : 0 ≤ doe) (h2 : doe < 146097) :
    0 ≤ doe - (365 * ((doe - doe / 1460 + doe / 36524 - doe / 146096) / 365)
        + ((doe - doe / 1460 + doe / 36524 - doe / 146096) / 365) / 4
        - ((doe - doe / 1460 + doe / 36524 - doe / 146096) / 365) / 100)
    ∧ doe - (365 * ((doe - doe / 1460 + doe / 36524 - doe / 146096) / 365)
        + ((doe - doe / 1460 + doe / 36524 - doe / 146096) / 365) / 4
        - ((doe - doe / 1460 + doe / 36524 - doe / 146096) / 365) / 100) ≤ 365
    ∧ 0 ≤ (doe - doe / 1460 + doe / 36524 - doe / 146096) / 365
    ∧ (doe - doe / 1460 + doe / 36524 - doe / 146096) / 365 < 400 := by
  have hq1 : 0 ≤ doe / 1460 := by omega
  have hq2 : doe / 1460 ≤ 100 := by omega
  set q := doe / 1460 with hq
  interval_cases q <;>
    first
      | omega
      | (have he1 : 0 ≤ doe / 36524 := by omega
         have he2 : doe / 36524 ≤ 4 := by omega
         set e := doe / 36524 with he
         interval_cases e <;> omega)

set_option maxHeartbeats 4000000 in
/-- The era-based civil-date algorithms invert each other. -/
theorem daysFromCivil_civilFromDays (z : ℤ) :
    daysFromCivil (civilFromDays z).1 (civilFromDays z).2.1 (civilFromDays z).2.2
      = z := by
  have hlo : 0 ≤ (z + 719468) % 146097 := Int.emod_nonneg _ (by norm_num)
  have hhi : (z + 719468) % 146097 < 146097 := Int.emod_lt_of_pos _ (by norm_num)
  have hsplit : z + 719468
      = 146097 * ((z + 719468) / 146097) + (z + 719468) % 146097 :=
    (Int.ediv_add_emod _ _).symm
  unfold civilFromDays daysFromCivil
  dsimp only
  have hrw : z + 719468 - (z + 719468) / 146097 * 146097 = (z + 719468) % 146097 := by
    omega
  rw [hrw]
  generalize hdoe : (z + 719468) % 146097 = doe at *
  generalize hera : (z + 719468) / 146097 = era at *
  have hb := doy_bounds doe hlo hhi
  set Y := (doe - doe / 1460 + doe / 36524 - doe / 146096) / 365 with hY
  set doy := doe - (365 * Y + Y / 4 - Y / 100) with hdoy
  set mp := (5 * doy + 2) / 153 with hmp
  have hk : (Y + era * 400) / 400 = era := by omega
  have hm1 : (mp + 3 + 9) % 12 = mp := by omega
  have hm2 : (mp + -9 + 9) % 12 = mp := by omega
  split_ifs <;> simp only [add_sub_cancel_right, hk] <;> omega

/-- Zone conversion preserves the instant and lands on one of the two Los
Angeles offsets. -/
theorem astimezoneLA_spec (t : PyDateTime) :
    (astimezoneLA t).epochSeconds = t.epochSeconds
    ∧ ((astimezoneLA t).utcOffsetMinutes = -480
        ∨ (astimezoneLA t).utcOffsetMinutes = -420) := by
  unfold astimezoneLA
  dsimp only
  constructor
  · unfold PyDateTime.epochSeconds
    dsimp only
    rw [daysFromCivil_civilFromDays]
    omega
  · unfold laOffsetMinutes
    dsimp only
    split_ifs <;> simp

/-- C7 counterexample: a capture-time string in the bare
`"YYYY-MM-DD HH:MM:SS"` form is rejected by record construction (it
raises `ValueError`): the `strptime` format demands the literal `" UTC"`
suffix.  The same civil time with the suffix parses and is stored
converted to Los Angeles time. -/
theorem parse_date_requires_utc_suffix :
    parse_date "2024-01-01 12:00:00" = none
    ∧ parse_date "2024-01-01 12:00:00 UTC" = some ⟨2024, 1, 1, 4, 0, 0, -480⟩ :=
  ⟨by decide, by decide⟩

/-- Every month has at most 31 days. -/
theorem daysInMonth_le (y m : ℤ) : daysInMonth y m ≤ 31 := by
  unfold daysInMonth
  split_ifs <;> norm_num

/-- C7 (amended): every capture-time string in the canonical
`"YYYY-MM-DD HH:MM:SS UTC"` source-zone form — the trailing `" UTC"`
literal is part of the fixed form — parses successfully, is interpreted
as civil time in UTC, and is stored as the equivalent civil time in the
fixed target zone (America/Los_Angeles): the stored value denotes the
same instant and carries one of the two Los Angeles offsets.  The stored
record field is a value of the embedding, never mutated afterwards. -/
theorem capture_time_parsing (y mo d h mi s : ℕ) (hy1 : 1 ≤ y) (hy : y < 10000)
    (hmo1 : 1 ≤ mo) (hmo : mo ≤ 12) (hd1 : 1 ≤ d)
    (hdm : (d : ℤ) ≤ daysInMonth (y : ℤ) (mo : ℤ))
    (hh : h ≤ 23) (hmi : mi ≤ 59) (hs : s ≤ 59) :
    parse_date (manifestDateString y mo d h mi s)
      = some (astimezoneLA (mkUTC y mo d h mi s))
    ∧ (astimezoneLA (mkUTC y mo d h mi s)).epochSeconds
        = (mkUTC y mo d h mi s).epochSeconds
    ∧ ((astimezoneLA (mkUTC y mo d h mi s)).utcOffsetMinutes = -480
        ∨ (astimezoneLA (mkUTC y mo d h mi s)).utcOffsetMinutes = -420) := by
  refine ⟨?_, (astimezoneLA_spec _).1, (astimezoneLA_spec _).2⟩
  unfold parse_date
  rw [runFmt_dateFmt y mo d h mi s hy (by omega)
    (by have := daysInMonth_le (y : ℤ) (mo : ℤ); omega)
    (by omega) (by omega) (by omega)]
  dsimp only
  have hcond : 1 ≤ y ∧ 1 ≤ mo ∧ mo ≤ 12 ∧ 1 ≤ d
      ∧ (d : ℤ) ≤ daysInMonth (y : ℤ) (mo : ℤ) ∧ h ≤ 23 ∧ mi ≤ 59 ∧ s ≤ 59 :=
    ⟨hy1, hmo1, hmo, hd1, hdm, hh, hmi, hs⟩
  rw [if_pos hcond]

/-- C7 witness: the canonical string for 2024-01-01 12:00:00 UTC parses
to 04:00:00 PST on the same day, preserving the instant. -/
theorem capture_time_parsing_witness :
    parse_date (manifestDateString 2024 1 1 12 0 0)
      = some (astimezoneLA (mkUTC 2024 1 1 12 0 0))
    ∧ (astimezoneLA (mkUTC 2024 1 1 12 0 0)).epochSeconds
        = (mkUTC 2024 1 1 12 0 0).epochSeconds
    ∧ ((astimezoneLA (mkUTC 2024 1 1 12 0 0)).utcOffsetMinutes = -480
        ∨ (astimezoneLA (mkUTC 2024 1 1 12 0 0)).utcOffsetMinutes = -420) :=
  capture_time_parsing 2024 1 1 12 0 0 (by decide) (by decide) (by decide)
    (by decide) (by decide) (by decide) (by decide) (by decide) (by decide)

/-! ## C6 — GPS metadata numerics -/

/-- For a nonnegative fraction, Python truncation agrees with floor. -/
theorem Frac.trunc_eq_floor (a : Frac) (hn : 0 ≤ a.num) (hd : 0 ≤ a.den) :
    a.trunc = a.floor := by
  unfold Frac.trunc Frac.floor
  rw [Int.tdiv_eq_ediv hn hd, Int.fdiv_eq_ediv _ hd]

/-- Rounding a nonnegative fraction yields a nonnegative integer. -/
theorem roundHalfEven_nonneg (q : Frac) (hn : 0 ≤ q.num) (hd : 0 ≤ q.den) :
    0 ≤ Frac.roundHalfEven q := by
  have hf : 0 ≤ q.floor := Int.fdiv_nonneg hn hd
  unfold Frac.roundHalfEven
  dsimp only
  split_ifs <;> omega

/-- One `(x - int(x)) * 60` step of `to_deg` keeps the value nonnegative
and the denominator unchanged. -/
theorem frac_step_nonneg (a : Frac) (hn : 0 ≤ a.num) (hd : 0 < a.den) :
    0 ≤ ((a.sub (Frac.ofInt a.trunc)).mul (Frac.ofInt 60)).num
      ∧ ((a.sub (Frac.ofInt a.trunc)).mul (Frac.ofInt 60)).den = a.den := by
  have hq : a.num.tdiv a.den = a.num / a.den := Int.tdiv_eq_ediv hn hd.le
  have hmod : 0 ≤ a.num % a.den := Int.emod_nonneg a.num (by omega)
  have hdef : a.num % a.den = a.num - a.den * (a.num / a.den) := Int.emod_def a.num a.den
  simp only [Frac.sub, Frac.mul, Frac.ofInt, Frac.trunc]
  constructor
  · rw [hq]
    have hrem : a.num * 1 - a.num / a.den * a.den = a.num % a.den := by
      rw [hdef]
      ring
    rw [hrem]
    exact mul_nonneg hmod (by norm_num)
  · ring

/-- Numerator of a multiplication by an integer constant. -/
theorem Frac.mul_ofInt_num (a : Frac) (k : ℤ) :
    (a.mul (Frac.ofInt k)).num = a.num * k := rfl

/-- Denominator of a multiplication by an integer constant. -/
theorem Frac.mul_ofInt_den (a : Frac) (k : ℤ) :
    (a.mul (Frac.ofInt k)).den = a.den * 1 := rfl

/-- The seconds value produced by `to_deg` is nonnegative and carries the
fixed `10^6` denominator of the 6-digit rounding. -/
theorem to_deg_seconds_spec (v : Frac) (hd : 0 < v.den) :
    0 ≤ (to_deg v).2.2.num ∧ (to_deg v).2.2.den = 10 ^ 6 := by
  have habs_n : 0 ≤ v.abs.num := Int.natCast_nonneg _
  have habs_d : 0 < v.abs.den := by
    simp only [Frac.abs]
    omega
  obtain ⟨h1n, h1d⟩ := frac_step_nonneg v.abs habs_n habs_d
  obtain ⟨h2n, h2d⟩ := frac_step_nonneg ((v.abs.sub (Frac.ofInt v.abs.trunc)).mul
    (Frac.ofInt 60)) h1n (h1d ▸ habs_d)
  unfold to_deg Frac.roundDec
  dsimp only
  refine ⟨?_, rfl⟩
  apply roundHalfEven_nonneg
  · rw [Frac.mul_ofInt_num]
    exact mul_nonneg h2n (by norm_num)
  · rw [Frac.mul_ofInt_den, h2d, h1d]
    omega

/-- C6 counterexample: the code does not round the seconds to 2 decimal
digits — it truncates.  At latitude 0.0001575° the exact DMS seconds
value is 0.567; rounding to 2 digits gives 0.57 (numerator 57), but the
code encodes (56, 100). -/
theorem gps_rounding_counterexample :
    (to_deg ⟨1575, 10000000⟩).2.2.equiv ⟨567, 1000⟩
    ∧ deg_to_rational (to_deg ⟨1575, 10000000⟩) = [(0, 1), (0, 1), (56, 100)]
    ∧ Frac.roundDec ⟨567, 1000⟩ 2 = ⟨57, 100⟩
    ∧ ((56 : ℤ) ≠ 57) := by
  refine ⟨by decide, by decide, by decide, by decide⟩

/-- C6 (amended): hemisphere references come from the sign; the seconds
are rounded to 6 decimal digits by `to_deg` and the rational encoding
truncates `s · 100` (equivalently takes its floor, since `s ≥ 0`) over
the fixed denominator 100.  In particular latitude 37.7749 encodes to
(37, 46, 29.64), i.e. `[(37,1),(46,1),(2964,100)]`, and decoding that
triple recovers 37.7749 exactly — within 0.0001 degrees. -/
theorem gps_encoding (lat lon : Frac) (hlat : 0 < lat.den) (hlon : 0 < lon.den) :
    ((gps_exif lat lon).latRef = if lat.Nonneg then "N" else "S")
    ∧ ((gps_exif lat lon).lonRef = if lon.Nonneg then "E" else "W")
    ∧ ((gps_exif lat lon).latDMS = deg_to_rational (to_deg lat))
    ∧ ((gps_exif lat lon).lonDMS = deg_to_rational (to_deg lon))
    ∧ ((gps_exif lat lon).versionID = [2, 3, 0, 0])
    ∧ 0 ≤ (to_deg lat).2.2.num
    ∧ ((gps_exif lat lon).latDMS
        = [((to_deg lat).1, 1), ((to_deg lat).2.1, 1),
            (((to_deg lat).2.2.mul (Frac.ofInt 100)).floor, 100)])
    ∧ ((gps_exif ⟨377749, 10000⟩ ⟨-1223194, 10000⟩).latRef = "N")
    ∧ ((gps_exif ⟨377749, 10000⟩ ⟨-1223194, 10000⟩).lonRef = "W")
    ∧ ((gps_exif ⟨377749, 10000⟩ ⟨-1223194, 10000⟩).latDMS
        = [(37, 1), (46, 1), (2964, 100)])
    ∧ (decodeRationalDMS [(37, 1), (46, 1), (2964, 100)]).equiv ⟨377749, 10000⟩
    ∧ ((decodeRationalDMS [(37, 1), (46, 1), (2964, 100)]).sub
        ⟨377749, 10000⟩).abs.le ⟨1, 10000⟩ := by
  have hs := to_deg_seconds_spec lat hlat
  have hfloor : ((to_deg lat).2.2.mul (Frac.ofInt 100)).trunc
      = ((to_deg lat).2.2.mul (Frac.ofInt 100)).floor := by
    apply Frac.trunc_eq_floor
    · rw [Frac.mul_ofInt_num]
      exact mul_nonneg hs.1 (by norm_num)
    · rw [Frac.mul_ofInt_den, hs.2]
      norm_num
  refine ⟨rfl, rfl, rfl, rfl, rfl, hs.1, ?_, by decide, by decide, by decide,
    by decide, by decide⟩
  simp [gps_exif, deg_to_rational, hfloor]

/-- C6 witness: the amended encoding applied at (37.7749, -122.3194). -/
theorem gps_encoding_witness :
    ((gps_exif ⟨377749, 10000⟩ ⟨-1223194, 10000⟩).latDMS
      = [(37, 1), (46, 1), (2964, 100)])
    ∧ (decodeRationalDMS [(37, 1), (46, 1), (2964, 100)]).equiv ⟨377749, 10000⟩ :=
  ⟨(gps_encoding ⟨377749, 10000⟩ ⟨-1223194, 10000⟩ (by decide)
      (by decide)).2.2.2.2.2.2.2.2.2.1,
    (gps_encoding ⟨377749, 10000⟩ ⟨-1223194, 10000⟩ (by decide)
      (by decide)).2.2.2.2.2.2.2.2.2.2.1⟩

/-! ## C5 — image compositing -/

/-- Metadata wrapping never changes the image pixels of an output file. -/
theorem applyMetadata_imageContent (env : ItemEnv) (m : Memory) (a : Bool)
    (f : OutputFile) :
    (applyMetadata env m a f).imageContent = f.imageContent := by
  unfold applyMetadata
  split_ifs <;> simp [OutputFile.imageContent]

/-- C5: for a composite image item, an overlay (when present) is decoded
and resampled with the Lanczos filter to exactly the base image's
dimensions, alpha-composited onto the 4-channel base, and the result is
flattened to an opaque 3-channel image (`ImageRGB` has no alpha channel
by construction); without an overlay the base is flattened directly.
Either way the persisted image has the base's dimensions. -/
theorem image_composite (env : ItemEnv) (memory : Memory) (add_exif : Bool)
    (entries : List (String × Bytes)) (main_file overlay_file : String)
    (main_img overlay_img : ImageRGBA)
    (hfetch : env.fetchOk = true)
    (hzip : is_zip env.contentType env.content = true)
    (hentries : env.zipEntries = some entries)
    (himage : strLower memory.media_type = "image")
    (hmain : (entries.map (·.1)).find? (fun f => strContains f "-main") = some main_file)
    (hdec : env.pil.decode (zfRead entries main_file) = some main_img)
    (hres : ResizeDims env.pil)
    (hcomp : CompositeDims env.pil) :
    ((entries.map (·.1)).find? (fun f => strContains f "-overlay") = some overlay_file →
      env.pil.decode (zfRead entries overlay_file) = some overlay_img →
      (env.pil.resize overlay_img main_img.width main_img.height .lanczos).width
          = main_img.width
      ∧ (env.pil.resize overlay_img main_img.width main_img.height .lanczos).height
          = main_img.height
      ∧ ∃ w, (download_memory env memory add_exif).written = some w
          ∧ w.imageContent = some ((env.pil.alphaComposite main_img
              (env.pil.resize overlay_img main_img.width main_img.height
                .lanczos)).convertRGB)
          ∧ ((env.pil.alphaComposite main_img
              (env.pil.resize overlay_img main_img.width main_img.height
                .lanczos)).convertRGB).width = main_img.width
          ∧ ((env.pil.alphaComposite main_img
              (env.pil.resize overlay_img main_img.width main_img.height
                .lanczos)).convertRGB).height = main_img.height)
    ∧ ((entries.map (·.1)).find? (fun f => strContains f "-overlay") = none →
      ∃ w, (download_memory env memory add_exif).written = some w
        ∧ w.imageContent = some main_img.convertRGB
        ∧ main_img.convertRGB.width = main_img.width
        ∧ main_img.convertRGB.height = main_img.height) := by
  have himg : (strLower memory.media_type == "image") = true := by
    simp [himage]
  constructor
  · intro hover hdec2
    have hcore : downloadCore env memory
        = some (.jpeg ((env.pil.alphaComposite main_img
            (env.pil.resize overlay_img main_img.width main_img.height
              .lanczos)).convertRGB)) := by
      simp [downloadCore, hfetch, hzip, hentries, hmain, hover, himg, hdec, hdec2]
    refine ⟨(hres overlay_img main_img.width main_img.height .lanczos).1,
      (hres overlay_img main_img.width main_img.height .lanczos).2, ?_⟩
    refine ⟨applyMetadata env memory add_exif (.jpeg ((env.pil.alphaComposite main_img
      (env.pil.resize overlay_img main_img.width main_img.height
        .lanczos)).convertRGB)), ?_, ?_, ?_, ?_⟩
    · simp [download_memory, hcore, successResult]
    · rw [applyMetadata_imageContent]
      rfl
    · exact (hcomp main_img _).1
    · exact (hcomp main_img _).2
  · intro hover
    have hcore : downloadCore env memory = some (.jpeg main_img.convertRGB) := by
      simp [downloadCore, hfetch, hzip, hentries, hmain, hover, himg, hdec]
    refine ⟨applyMetadata env memory add_exif (.jpeg main_img.convertRGB), ?_, ?_, rfl, rfl⟩
    · simp [download_memory, hcore, successResult]
    · rw [applyMetadata_imageContent]
      rfl

/-- C5 witness: the fixture archive with base and overlay, under the
fixture PIL, persists the composited flattened image at the base's 2×3
geometry. -/
theorem image_composite_witness :
    (pilFix.resize imgFix imgFix.width imgFix.height .lanczos).width = imgFix.width
    ∧ (pilFix.resize imgFix imgFix.width imgFix.height .lanczos).height = imgFix.height
    ∧ ∃ w, (download_memory envMergeOk memImage true).written = some w
        ∧ w.imageContent = some ((pilFix.alphaComposite imgFix
            (pilFix.resize imgFix imgFix.width imgFix.height .lanczos)).convertRGB)
        ∧ ((pilFix.alphaComposite imgFix
            (pilFix.resize imgFix imgFix.width imgFix.height
              .lanczos)).convertRGB).width = imgFix.width
        ∧ ((pilFix.alphaComposite imgFix
            (pilFix.resize imgFix imgFix.width imgFix.height
              .lanczos)).convertRGB).height = imgFix.height :=
  (image_composite envMergeOk memImage true
      [("media~zip-main.mp4", [7, 7, 7]), ("media~zip-overlay.png", [8, 8])]
      "media~zip-main.mp4" "media~zip-overlay.png" imgFix imgFix
      rfl (by decide) rfl (by decide) (by decide) rfl
      (fun img w h f => ⟨rfl, rfl⟩) (fun base top => ⟨rfl, rfl⟩)).1
    (by decide) rfl

/-! ## C1 — the run-statistics invariant -/

/-- C1: over any run, `downloaded + skipped + failed` equals the number of
records; the skipped count is exactly the records whose derived file
exists under skip-existing, and each scheduled record adds one to exactly
one of `downloaded`/`failed` according to its outcome. -/
theorem stats_invariant (env : RunEnv) (add_exif skip_existing : Bool)
    (memories : List Memory) :
    ((download_all env add_exif skip_existing memories).1.downloaded
        + (download_all env add_exif skip_existing memories).1.skipped
        + (download_all env add_exif skip_existing memories).1.failed
      = memories.length)
    ∧ ((download_all env add_exif skip_existing memories).1.skipped
      = (memories.filter
          (fun m => skip_existing && env.pathExists m.filename)).length)
    ∧ ((download_all env add_exif skip_existing memories).1.downloaded
      = ((download_all env add_exif skip_existing memories).2.filter
          (fun m => (download_memory (env.itemEnv m) m add_exif).success)).length)
    ∧ ((download_all env add_exif skip_existing memories).1.failed
      = ((download_all env add_exif skip_existing memories).2.filter
          (fun m => !(download_memory (env.itemEnv m) m add_exif).success)).length) :=
  ⟨(run_spec env add_exif skip_existing memories).1,
    (run_spec env add_exif skip_existing memories).2.1,
    (run_spec env add_exif skip_existing memories).2.2.2.1,
    (run_spec env add_exif skip_existing memories).2.2.2.2⟩

/-! ## C8 — skip-existing short-circuits the whole item -/

/-- C8: with skip-existing enabled, a record whose derived output file
already exists is counted skipped, is never scheduled, and the run
contains no event of any kind for it — no gate acquire, no fetch, no
write. -/
theorem skip_existing_short_circuit (env : RunEnv) (add_exif : Bool)
    (memories : List Memory) (memory : Memory)
    (hexists : env.pathExists memory.filename = true) :
    memory ∉ (download_all env add_exif true memories).2
    ∧ (∀ e ∈ runEvents env add_exif true memories,
        e ≠ .acquire memory ∧ e ≠ .fetch memory ∧ e ≠ .write memory
          ∧ e ≠ .release memory)
    ∧ (download_all env add_exif true memories).1.skipped
      = (memories.filter (fun m => env.pathExists m.filename)).length := by
  obtain ⟨-, hskip, hsched, -, -⟩ := run_spec env add_exif true memories
  have hnotmem : memory ∉ (download_all env add_exif true memories).2 := by
    rw [hsched]
    intro hmem
    have hcond := (List.mem_filter.mp hmem).2
    simp [hexists] at hcond
  refine ⟨hnotmem, ?_, ?_⟩
  · intro e he
    unfold runEvents at he
    rw [List.mem_flatMap] at he
    obtain ⟨m', hm', hev⟩ := he
    have hne : m' ≠ memory := by
      intro heq
      subst heq
      exact hnotmem hm'
    have howner := download_memory_events_owner (env.itemEnv m') m' add_exif e hev
    rcases howner with h | h | h | h <;> subst h <;> simp [hne]
  · rw [hskip]
    simp only [Bool.true_and]

/-- C8 witness: one record whose file already exists: it is not scheduled,
the run has no events at all for it, and it is counted skipped. -/
theorem skip_existing_short_circuit_witness :
    memImage ∉ (download_all runEnvFix true true [memImage]).2
    ∧ (∀ e ∈ runEvents runEnvFix true true [memImage],
        e ≠ .acquire memImage ∧ e ≠ .fetch memImage ∧ e ≠ .write memImage
          ∧ e ≠ .release memImage)
    ∧ (download_all runEnvFix true true [memImage]).1.skipped
      = ([memImage].filter (fun m => runEnvFix.pathExists m.filename)).length :=
  skip_existing_short_circuit runEnvFix true [memImage] memImage rfl

/-- C10 witness: the unrecognized-kind fixture fails on a composite
payload and succeeds (raw write, `.mp4` name) on a plain payload. -/
theorem unsupported_media_type_witness :
    ((download_memory envMergeOk memOther false).success = false
      ∧ (download_memory envMergeOk memOther false).written = none
      ∧ (process_and_update Stats.init (download_memory envMergeOk memOther false)).failed
          = Stats.init.failed + 1)
    ∧ ((download_memory envPlain memOther false).success = true
      ∧ (download_memory envPlain memOther false).written
          = some (OutputFile.raw [0x00, 0x01, 0x02])
      ∧ memOther.filename = strftimeFile memOther.date ++ ".mp4"
      ∧ (process_and_update Stats.init (download_memory envPlain memOther false)).downloaded
          = Stats.init.downloaded + 1) := by
  constructor
  · exact (unsupported_media_type envMergeOk memOther false Stats.init rfl
      (by decide) (by decide)).1
      [("media~zip-main.mp4", [7, 7, 7]), ("media~zip-overlay.png", [8, 8])]
      "media~zip-main.mp4" (by decide) rfl (by decide)
  · exact (unsupported_media_type envPlain memOther false Stats.init rfl
      (by decide) (by decide)).2 (by decide)

end SnapMem
